import Mathlib

/-!
Verification of the Apple Container runtime adapter
(pkg/commands/apple_container.go): the line-splitting / record-decoding /
field-mapping / validation pipeline behind parseContainerList,
parseImageList, jsonToContainer, jsonToImage, GetContainers, GetImages and
SystemStatus.

Modelling conventions:
* Go strings are modelled as rune lists (List Char).
* json.Unmarshal is Go standard-library code outside this repository; it is
  abstracted as an explicit decode argument of type
  List Char → Option RawRecord, returning the decoded top-level object
  mapping, or none on any structural decode failure.
* The external command invocation (OSCommand.RunCommandWithOutput) is
  likewise abstracted as an explicit run argument of type
  Except GoError (List Char).
* Logging (logrus) has no effect on results and is dropped.
* Go functions returning (value, error) pairs are modelled as pairs with an
  Option GoError error component, or as Except GoError when the value is
  absent on error.
-/

/-- Go error values, modelled by their message; fmt.Errorf wrapping is
modelled as message-prefix concatenation. -/
abbrev GoError := String

/-- JSON values as decoded by Go's encoding/json into interface values:
strings, numbers, booleans, null, arrays and objects. Numbers are kept as
their literal text; their numeric value is never consulted by this code
(only string-typed assertions occur). -/
inductive JsonValue where
  | str (s : String)
  | num (lit : String)
  | bool (b : Bool)
  | null
  | arr (elems : List JsonValue)
  | obj (fields : List (String × JsonValue))

/-- The untyped decoded mapping a list line is unmarshalled into
(Go map from string to interface value), as a key-value association list. -/
abbrev RawRecord := List (String × JsonValue)

/-- Go map indexing data at a key: the first binding of the key, if any. -/
def lookupKey : RawRecord → String → Option JsonValue
  | [], _ => none
  | (k, v) :: rest, key => if k = key then some v else lookupKey rest key

/-- The comma-ok string type assertion pattern in the source
(v with discarded ok from data at key as string): the string value when the
key is bound to a JSON string, and the empty string when the key is absent
or bound to a non-string value. -/
def getString (data : RawRecord) (key : String) : String :=
  match lookupKey data key with
  | some (JsonValue.str s) => s
  | _ => ""

/-- Modelled from the spec: the Container entity of the data model
(spec section 3) with identity fields ID and Name and descriptive fields
Image and State; the Go struct definition is not part of this fragment.
The runtime-context back-references the source also stores (OSCommand, Log,
Tr) carry no parsing-relevant data and are omitted. String fields the
source's constructor does not set carry the Go zero value, the empty
string. -/
structure Container where
  ID : String
  Name : String
  Image : String
  State : String
deriving DecidableEq, Repr, Inhabited

/-- Modelled from the spec: the Image entity of the data model
(spec section 3) with mandatory ID and optional Name and Tag; the Go struct
definition is not part of this fragment. The runtime-context
back-references (OSCommand, Log) are omitted as above. -/
structure Image where
  ID : String
  Name : String
  Tag : String
deriving DecidableEq, Repr, Inhabited

/-- The state-vocabulary switch inside jsonToContainer
(apple_container.go lines 123-128): Apple Container state "stopped" maps to
Docker terminology "exited", every other state passes through unchanged. -/
def mapAppleState (state : String) : String :=
  if state = "stopped" then "exited" else state

/-- Embeds jsonToContainer (apple_container.go lines 98-132): extracts id,
name, image and state with the comma-ok string assertion, rejects records
whose id or name extracts to the empty string, and otherwise builds the
Container literal, which sets only ID and Name. The extracted image and
the mapped state feed only a debug log line in the source and are never
stored on the entity, so Image and State remain at the Go zero value. -/
def jsonToContainer (data : RawRecord) : Option Container :=
  let id := getString data "id"
  let name := getString data "name"
  let _image := getString data "image"
  let state := getString data "state"
  if id = "" ∨ name = "" then
    none
  else
    let _mappedState := mapAppleState state
    some { ID := id, Name := name, Image := "", State := "" }

/-- Embeds jsonToImage (apple_container.go lines 236-256): extracts id,
name and tag, rejects records whose id extracts to the empty string, and
otherwise builds the Image with all three fields. -/
def jsonToImage (data : RawRecord) : Option Image :=
  let id := getString data "id"
  let name := getString data "name"
  let tag := getString data "tag"
  if id = "" then
    none
  else
    some { ID := id, Name := name, Tag := tag }

/-- Go's unicode.IsSpace, the predicate used by strings.TrimSpace: the
Unicode White_Space property. -/
def isSpace (c : Char) : Bool :=
  c.val = 9 ∨ c.val = 10 ∨ c.val = 11 ∨ c.val = 12 ∨ c.val = 13 ∨ c.val = 32 ∨
  c.val = 0x85 ∨ c.val = 0xA0 ∨ c.val = 0x1680 ∨
  (0x2000 ≤ c.val ∧ c.val ≤ 0x200A) ∨
  c.val = 0x2028 ∨ c.val = 0x2029 ∨ c.val = 0x202F ∨ c.val = 0x205F ∨
  c.val = 0x3000

/-- Go strings.TrimSpace on a rune list: drop leading and trailing
White_Space runes. -/
def trimSpace (s : List Char) : List Char :=
  ((s.dropWhile isSpace).reverse.dropWhile isSpace).reverse

/-- Go strings.Split with a newline separator: the segments between
newlines, in order; n newlines yield n plus one segments. -/
def splitNl : List Char → List (List Char)
  | [] => [[]]
  | c :: rest =>
    if c = '\n' then
      [] :: splitNl rest
    else
      match splitNl rest with
      | [] => [[c]]
      | l :: ls => (c :: l) :: ls

/-- The body of the per-line loop of parseContainerList
(apple_container.go lines 77-92): a line blank after trimming is skipped;
a line json.Unmarshal rejects is logged and skipped; a decoded record goes
through jsonToContainer, whose nil result is skipped. The undecoded,
untrimmed line is what is passed to the decoder, as in the source. -/
def containerLineStep (decode : List Char → Option RawRecord)
    (line : List Char) : Option Container :=
  if trimSpace line = [] then none
  else
    match decode line with
    | none => none
    | some data => jsonToContainer data

/-- The body of the per-line loop of parseImageList
(apple_container.go lines 215-229), mirroring containerLineStep. -/
def imageLineStep (decode : List Char → Option RawRecord)
    (line : List Char) : Option Image :=
  if trimSpace line = [] then none
  else
    match decode line with
    | none => none
    | some data => jsonToImage data

/-- Embeds parseContainerList (apple_container.go lines 68-95): blank-after
trimming input yields the empty list; otherwise the trimmed input is split
on newlines and the per-line loop accumulates, in input order, the
containers produced by the lines that survive every skip. The error result
is always nil. -/
def parseContainerList (decode : List Char → Option RawRecord)
    (output : List Char) : List Container × Option GoError :=
  if trimSpace output = [] then ([], none)
  else
    let lines := splitNl (trimSpace output)
    (lines.filterMap (containerLineStep decode), none)

/-- Embeds parseImageList (apple_container.go lines 207-233), identical in
structure to parseContainerList. -/
def parseImageList (decode : List Char → Option RawRecord)
    (output : List Char) : List Image × Option GoError :=
  if trimSpace output = [] then ([], none)
  else
    let lines := splitNl (trimSpace output)
    (lines.filterMap (imageLineStep decode), none)

/-- Embeds GetContainers (apple_container.go lines 46-65): the external
command invocation is abstracted as the run argument; a failed run is
wrapped and surfaced; otherwise the output goes through parseContainerList
and a parse error would be wrapped and surfaced. -/
def GetContainers (run : Except GoError (List Char))
    (decode : List Char → Option RawRecord) : Except GoError (List Container) :=
  match run with
  | Except.error e => Except.error ("failed to get containers: " ++ e)
  | Except.ok output =>
    match parseContainerList decode output with
    | (_, some e) => Except.error ("failed to parse container list: " ++ e)
    | (containers, none) => Except.ok containers

/-- Embeds GetImages (apple_container.go lines 185-204), mirroring
GetContainers. -/
def GetImages (run : Except GoError (List Char))
    (decode : List Char → Option RawRecord) : Except GoError (List Image) :=
  match run with
  | Except.error e => Except.error ("failed to get images: " ++ e)
  | Except.ok output =>
    match parseImageList decode output with
    | (_, some e) => Except.error ("failed to parse image list: " ++ e)
    | (images, none) => Except.ok images

/-- Embeds SystemStatus (apple_container.go lines 271-285): a failed run is
wrapped and surfaced; otherwise the whole output is decoded as one
document: decode failure is surfaced as an error (the underlying decoder
message, lost by the Option abstraction, is elided from the wrapped text),
and decode success returns the mapping verbatim. -/
def SystemStatus (run : Except GoError (List Char))
    (decode : List Char → Option RawRecord) : Except GoError RawRecord :=
  match run with
  | Except.error e => Except.error ("failed to get system status: " ++ e)
  | Except.ok output =>
    match decode output with
    | none => Except.error "failed to parse system status"
    | some status => Except.ok status

/-! Concrete inputs used by witnesses and counterexamples. A concrete
decoder stands for json.Unmarshal restricted to the inputs of interest:
it recognises the listed lines and rejects every other input. -/

/-- A decoded record whose state field is "stopped". -/
def recStopped : RawRecord :=
  [("id", JsonValue.str "abc123"), ("name", JsonValue.str "c1"),
   ("state", JsonValue.str "stopped")]

/-- A single well-formed container line, exactly the spec's example. -/
def lineC3 : List Char := "line1".data

/-- The record of lineC3: all four container fields present. -/
def recC3 : RawRecord :=
  [("id", JsonValue.str "abc123"), ("name", JsonValue.str "test-container"),
   ("image", JsonValue.str "nginx"), ("state", JsonValue.str "running")]

/-- Concrete container-line decoder recognising only lineC3. -/
def decC3 : List Char → Option RawRecord :=
  fun l => if l = lineC3 then some recC3 else none

/-- A single well-formed image line. -/
def lineI3 : List Char := "img1".data

/-- The record of lineI3: id, name and tag present. -/
def recI3 : RawRecord :=
  [("id", JsonValue.str "img123"), ("name", JsonValue.str "nginx"),
   ("tag", JsonValue.str "latest")]

/-- Concrete image-line decoder recognising only lineI3. -/
def decI3 : List Char → Option RawRecord :=
  fun l => if l = lineI3 then some recI3 else none

/-- A record with name present but id missing. -/
def recNoId : RawRecord := [("name", JsonValue.str "n")]

/-- A container record with only the mandatory id and name. -/
def recCMin : RawRecord :=
  [("id", JsonValue.str "a"), ("name", JsonValue.str "b")]

/-- An image record with only the mandatory id. -/
def recIMin : RawRecord := [("id", JsonValue.str "a")]

/-- Decoder for the malformed-line scenario: recognises one good container
line and one good image line, and rejects everything else, in particular
the malformed line. -/
def decBad : List Char → Option RawRecord :=
  fun l =>
    if l = "good".data then some recCMin
    else if l = "goodI".data then some recIMin
    else none

/-- Two-good-lines decoder for the order-preservation scenario. -/
def decTwo : List Char → Option RawRecord :=
  fun l =>
    if l = "l1".data then
      some [("id", JsonValue.str "a1"), ("name", JsonValue.str "b1")]
    else if l = "l2".data then
      some [("id", JsonValue.str "a2"), ("name", JsonValue.str "b2")]
    else none

/-- Status-document decoder recognising one good document. -/
def decStatus : List Char → Option RawRecord :=
  fun l => if l = "ok".data then some [("status", JsonValue.str "running")] else none

/-! Helper lemmas shared by the claim theorems. -/

theorem splitNl_ne_nil (s : List Char) : splitNl s ≠ [] := by
  induction s with
  | nil => simp [splitNl]
  | cons c rest ih =>
    simp only [splitNl]
    split
    · simp
    · cases h : splitNl rest with
      | nil => simp
      | cons l ls => simp

theorem trimSpace_eq_nil_of_all_space (s : List Char)
    (h : ∀ c ∈ s, isSpace c = true) : trimSpace s = [] := by
  unfold trimSpace
  have h1 : s.dropWhile isSpace = [] := List.dropWhile_eq_nil_iff.mpr h
  simp [h1]

theorem jsonToContainer_eq (data : RawRecord) :
    jsonToContainer data =
      if getString data "id" = "" ∨ getString data "name" = "" then none
      else some { ID := getString data "id", Name := getString data "name",
                  Image := "", State := "" } := rfl

theorem jsonToImage_eq (data : RawRecord) :
    jsonToImage data =
      if getString data "id" = "" then none
      else some { ID := getString data "id", Name := getString data "name",
                  Tag := getString data "tag" } := rfl

theorem jsonToContainer_some {data : RawRecord} {c : Container}
    (h : jsonToContainer data = some c) : c.ID ≠ "" ∧ c.Name ≠ "" := by
  rw [jsonToContainer_eq] at h
  split at h
  · exact absurd h (by simp)
  · rename_i hne
    push_neg at hne
    cases h
    exact ⟨hne.1, hne.2⟩

theorem jsonToImage_some {data : RawRecord} {img : Image}
    (h : jsonToImage data = some img) : img.ID ≠ "" := by
  rw [jsonToImage_eq] at h
  split at h
  · exact absurd h (by simp)
  · rename_i hne
    cases h
    exact hne

theorem parseContainerList_eq_filterMap (decode : List Char → Option RawRecord)
    (output : List Char) (h : trimSpace output ≠ []) :
    parseContainerList decode output =
      ((splitNl (trimSpace output)).filterMap (containerLineStep decode), none) := by
  simp [parseContainerList, h]

theorem parseImageList_eq_filterMap (decode : List Char → Option RawRecord)
    (output : List Char) (h : trimSpace output ≠ []) :
    parseImageList decode output =
      ((splitNl (trimSpace output)).filterMap (imageLineStep decode), none) := by
  simp [parseImageList, h]

theorem filterMap_middle_none {α β : Type} (f : α → Option β)
    (L1 L2 : List α) (b : α) (hb : f b = none) :
    (L1 ++ b :: L2).filterMap f = (L1 ++ L2).filterMap f := by
  simp [List.filterMap_append, List.filterMap_cons, hb]

theorem filterMap_eq_map_getD {α β : Type} [Inhabited β] (f : α → Option β)
    (L : List α) (h : ∀ a ∈ L, (f a).isSome) :
    L.filterMap f = L.map (fun a => (f a).getD default) := by
  induction L with
  | nil => rfl
  | cons a t ih =>
    have ha : (f a).isSome := h a (by simp)
    obtain ⟨v, hv⟩ := Option.isSome_iff_exists.mp ha
    simp only [List.filterMap_cons, List.map_cons, hv, Option.getD_some]
    exact congrArg (v :: ·) (ih fun x hx => h x (by simp [hx]))

theorem containerLineStep_some {decode : List Char → Option RawRecord}
    {l : List Char} {c : Container}
    (h : containerLineStep decode l = some c) :
    ∃ data, decode l = some data ∧ jsonToContainer data = some c := by
  unfold containerLineStep at h
  split at h
  · exact absurd h (by simp)
  · cases hdec : decode l with
    | none => rw [hdec] at h; exact absurd h (by simp)
    | some data => rw [hdec] at h; exact ⟨data, rfl, h⟩

theorem imageLineStep_some {decode : List Char → Option RawRecord}
    {l : List Char} {img : Image}
    (h : imageLineStep decode l = some img) :
    ∃ data, decode l = some data ∧ jsonToImage data = some img := by
  unfold imageLineStep at h
  split at h
  · exact absurd h (by simp)
  · cases hdec : decode l with
    | none => rw [hdec] at h; exact absurd h (by simp)
    | some data => rw [hdec] at h; exact ⟨data, rfl, h⟩

theorem containerLineStep_eq_some {decode : List Char → Option RawRecord}
    {l : List Char} {r : RawRecord}
    (h1 : trimSpace l ≠ []) (h2 : decode l = some r)
    (h3 : getString r "id" ≠ "") (h4 : getString r "name" ≠ "") :
    containerLineStep decode l =
      some { ID := getString r "id", Name := getString r "name",
             Image := "", State := "" } := by
  simp [containerLineStep, h1, h2, jsonToContainer_eq, h3, h4]

theorem imageLineStep_eq_some {decode : List Char → Option RawRecord}
    {l : List Char} {r : RawRecord}
    (h1 : trimSpace l ≠ []) (h2 : decode l = some r)
    (h3 : getString r "id" ≠ "") :
    imageLineStep decode l =
      some { ID := getString r "id", Name := getString r "name",
             Tag := getString r "tag" } := by
  simp [imageLineStep, h1, h2, jsonToImage_eq, h3]

theorem containerLineStep_none_of_decode_none
    {decode : List Char → Option RawRecord} {l : List Char}
    (h : decode l = none) : containerLineStep decode l = none := by
  unfold containerLineStep
  split
  · rfl
  · rw [h]

theorem imageLineStep_none_of_decode_none
    {decode : List Char → Option RawRecord} {l : List Char}
    (h : decode l = none) : imageLineStep decode l = none := by
  unfold imageLineStep
  split
  · rfl
  · rw [h]

theorem parseContainerList_unfold (decode : List Char → Option RawRecord)
    (output : List Char) :
    parseContainerList decode output =
      ((if trimSpace output = [] then []
        else (splitNl (trimSpace output)).filterMap (containerLineStep decode)),
       none) := by
  unfold parseContainerList
  split <;> simp_all

theorem parseImageList_unfold (decode : List Char → Option RawRecord)
    (output : List Char) :
    parseImageList decode output =
      ((if trimSpace output = [] then []
        else (splitNl (trimSpace output)).filterMap (imageLineStep decode)),
       none) := by
  unfold parseImageList
  split <;> simp_all

theorem singleton_blank_of_splitNl_trim_nil {out : List Char}
    {L : List (List Char)} (h0 : trimSpace out = [])
    (h : splitNl (trimSpace out) = L) : L = [[]] := by
  rw [h0] at h
  simp only [splitNl] at h
  exact h.symm

theorem filterMap_splitNl_drop {β : Type} (f : List Char → Option β)
    (out out' : List Char) (L1 L2 : List (List Char)) (bad : List Char)
    (hf : f bad = none) (hfnil : f [] = none)
    (h : splitNl (trimSpace out) = L1 ++ bad :: L2)
    (h' : splitNl (trimSpace out') = L1 ++ L2)
    (hbad : trimSpace bad ≠ []) :
    (if trimSpace out = [] then ([] : List β)
     else (splitNl (trimSpace out)).filterMap f) =
    (if trimSpace out' = [] then []
     else (splitNl (trimSpace out')).filterMap f) := by
  by_cases hout : trimSpace out = []
  · exfalso
    have hL : L1 ++ bad :: L2 = [[]] :=
      singleton_blank_of_splitNl_trim_nil hout h
    cases L1 with
    | nil =>
      simp at hL
      exact hbad (by rw [hL.1]; rfl)
    | cons a t =>
      simp at hL
  · rw [if_neg hout, h]
    by_cases hout' : trimSpace out' = []
    · rw [if_pos hout']
      have hL : L1 ++ L2 = [[]] :=
        singleton_blank_of_splitNl_trim_nil hout' h'
      rw [filterMap_middle_none f L1 L2 bad hf, hL]
      simp [List.filterMap, hfnil]
    · rw [if_neg hout', h']
      exact filterMap_middle_none f L1 L2 bad hf

theorem GetContainers_ok (decode : List Char → Option RawRecord)
    (output : List Char) :
    GetContainers (Except.ok output) decode =
      Except.ok (parseContainerList decode output).1 := by
  unfold GetContainers
  simp only [parseContainerList_unfold]

theorem GetImages_ok (decode : List Char → Option RawRecord)
    (output : List Char) :
    GetImages (Except.ok output) decode =
      Except.ok (parseImageList decode output).1 := by
  unfold GetImages
  simp only [parseImageList_unfold]

/-! Claim theorems. -/

/-- C5: for every input string that is empty or consists only of
whitespace, both parseContainerList and parseImageList return an empty
sequence and a nil error. -/
theorem whitespace_input_yields_empty
    (decC decI : List Char → Option RawRecord) (output : List Char)
    (h : ∀ c ∈ output, isSpace c = true) :
    parseContainerList decC output = ([], none) ∧
    parseImageList decI output = ([], none) := by
  have ht := trimSpace_eq_nil_of_all_space output h
  exact ⟨by simp [parseContainerList, ht], by simp [parseImageList, ht]⟩

/-- Witness for C5 at the concrete all-whitespace input of a space, a
newline, a tab and a space. -/
theorem whitespace_input_yields_empty_witness :
    parseContainerList (fun _ => none) " \n\t ".data = ([], none) ∧
    parseImageList (fun _ => none) " \n\t ".data = ([], none) :=
  whitespace_input_yields_empty (fun _ => none) (fun _ => none) " \n\t ".data
    (by decide)

/-- C7: for every input string, every Container returned by
parseContainerList has non-empty ID and non-empty Name, and every Image
returned by parseImageList has non-empty ID. -/
theorem parsed_entities_have_identity
    (decC decI : List Char → Option RawRecord) (outC outI : List Char) :
    (∀ c ∈ (parseContainerList decC outC).1, c.ID ≠ "" ∧ c.Name ≠ "") ∧
    (∀ img ∈ (parseImageList decI outI).1, img.ID ≠ "") := by
  constructor
  · intro c hc
    rw [parseContainerList_unfold] at hc
    by_cases h : trimSpace outC = []
    · simp [h] at hc
    · rw [if_neg h] at hc
      simp only [List.mem_filterMap] at hc
      obtain ⟨l, _, hl⟩ := hc
      obtain ⟨data, _, hdata⟩ := containerLineStep_some hl
      exact jsonToContainer_some hdata
  · intro img himg
    rw [parseImageList_unfold] at himg
    by_cases h : trimSpace outI = []
    · simp [h] at himg
    · rw [if_neg h] at himg
      simp only [List.mem_filterMap] at himg
      obtain ⟨l, _, hl⟩ := himg
      obtain ⟨data, _, hdata⟩ := imageLineStep_some hl
      exact jsonToImage_some hdata

/-- Witness for C7 at a concrete input each for containers and images,
with the membership hypotheses discharged on the computed result lists. -/
theorem parsed_entities_have_identity_witness :
    (({ ID := "a", Name := "b", Image := "", State := "" } : Container).ID ≠ "" ∧
     ({ ID := "a", Name := "b", Image := "", State := "" } : Container).Name ≠ "") ∧
    ({ ID := "a", Name := "", Tag := "" } : Image).ID ≠ "" :=
  ⟨(parsed_entities_have_identity decBad decBad "good".data "goodI".data).1
      { ID := "a", Name := "b", Image := "", State := "" } (by decide),
   (parsed_entities_have_identity decBad decBad "good".data "goodI".data).2
      { ID := "a", Name := "", Tag := "" } (by decide)⟩

/-- C9: parseContainerList and parseImageList are deterministic pure
functions of their input: two calls on the same decoder and the same
output string produce identical result sequences. In the embedding both
parses are pure functions, so the two evaluations coincide definitionally;
the only side channel in the source is logging, which carries no result
state. -/
theorem parse_is_deterministic
    (decC decI : List Char → Option RawRecord) (output : List Char) :
    parseContainerList decC output = parseContainerList decC output ∧
    parseImageList decI output = parseImageList decI output :=
  ⟨rfl, rfl⟩

/-- C10: for every input string the error component of both list parsers
is nil, and consequently GetContainers and GetImages can only surface an
error when the external command invocation itself fails. -/
theorem parse_error_always_nil
    (decC decI : List Char → Option RawRecord) (outC outI : List Char)
    (runC runI : Except GoError (List Char)) :
    (parseContainerList decC outC).2 = none ∧
    (parseImageList decI outI).2 = none ∧
    (∀ e, GetContainers runC decC = Except.error e →
      ∃ e0, runC = Except.error e0) ∧
    (∀ e, GetImages runI decI = Except.error e →
      ∃ e0, runI = Except.error e0) := by
  have hC : ∀ (dec : List Char → Option RawRecord) (out : List Char),
      (parseContainerList dec out).2 = none := by
    intro dec out
    rw [parseContainerList_unfold]
  have hI : ∀ (dec : List Char → Option RawRecord) (out : List Char),
      (parseImageList dec out).2 = none := by
    intro dec out
    rw [parseImageList_unfold]
  refine ⟨hC decC outC, hI decI outI, ?_, ?_⟩
  · intro e he
    cases runC with
    | error e0 => exact ⟨e0, rfl⟩
    | ok output =>
      exfalso
      rw [GetContainers_ok] at he
      simp at he
  · intro e he
    cases runI with
    | error e0 => exact ⟨e0, rfl⟩
    | ok output =>
      exfalso
      rw [GetImages_ok] at he
      simp at he

/-- Witness for C10: a failed invocation is the only error source, checked
at a concrete failed run for containers and for images. -/
theorem parse_error_always_nil_witness :
    (∃ e0, (Except.error "boom" : Except GoError (List Char)) =
      Except.error e0) ∧
    (∃ e0, (Except.error "crash" : Except GoError (List Char)) =
      Except.error e0) :=
  ⟨(parse_error_always_nil decBad decBad [] [] (Except.error "boom")
      (Except.error "crash")).2.2.1 "failed to get containers: boom" rfl,
   (parse_error_always_nil decBad decBad [] [] (Except.error "boom")
      (Except.error "crash")).2.2.2 "failed to get images: crash" rfl⟩

/-- C8: for SystemStatus, when the invocation succeeds, a failed
whole-document decode yields an error and no status mapping, and a
successful decode returns the decoded mapping verbatim with no error. -/
theorem systemStatus_decode_semantics
    (run : Except GoError (List Char)) (decode : List Char → Option RawRecord)
    (output : List Char) (hrun : run = Except.ok output) :
    (decode output = none →
      SystemStatus run decode = Except.error "failed to parse system status") ∧
    (∀ status, decode output = some status →
      SystemStatus run decode = Except.ok status) := by
  subst hrun
  constructor
  · intro h
    simp [SystemStatus, h]
  · intro status h
    simp [SystemStatus, h]

/-- Witness for C8 at a concrete undecodable document and a concrete
decodable one. -/
theorem systemStatus_decode_semantics_witness :
    SystemStatus (Except.ok "bad".data) decStatus =
      Except.error "failed to parse system status" ∧
    SystemStatus (Except.ok "ok".data) decStatus =
      Except.ok [("status", JsonValue.str "running")] :=
  ⟨(systemStatus_decode_semantics (Except.ok "bad".data) decStatus
      "bad".data rfl).1 rfl,
   (systemStatus_decode_semantics (Except.ok "ok".data) decStatus
      "ok".data rfl).2 [("status", JsonValue.str "running")] rfl⟩

/-- C4: a structurally valid decoded record missing a mandatory field
(id for containers and images, or name for containers) produces no entity,
while a record carrying its mandatory fields as non-empty strings but
missing the optional ones (image and state for containers, name and tag
for images) produces an entity whose absent fields default to the empty
string. -/
theorem mandatory_vs_optional_fields :
    (∀ data : RawRecord, lookupKey data "id" = none →
      jsonToContainer data = none) ∧
    (∀ data : RawRecord, lookupKey data "name" = none →
      jsonToContainer data = none) ∧
    (∀ data : RawRecord, lookupKey data "id" = none →
      jsonToImage data = none) ∧
    (∀ (data : RawRecord) (i n : String),
      lookupKey data "id" = some (JsonValue.str i) → i ≠ "" →
      lookupKey data "name" = some (JsonValue.str n) → n ≠ "" →
      lookupKey data "image" = none → lookupKey data "state" = none →
      jsonToContainer data =
        some { ID := i, Name := n, Image := "", State := "" }) ∧
    (∀ (data : RawRecord) (i : String),
      lookupKey data "id" = some (JsonValue.str i) → i ≠ "" →
      lookupKey data "name" = none → lookupKey data "tag" = none →
      jsonToImage data = some { ID := i, Name := "", Tag := "" }) := by
  refine ⟨?_, ?_, ?_, ?_, ?_⟩
  · intro data h
    rw [jsonToContainer_eq]
    have : getString data "id" = "" := by simp [getString, h]
    simp [this]
  · intro data h
    rw [jsonToContainer_eq]
    have : getString data "name" = "" := by simp [getString, h]
    simp [this]
  · intro data h
    rw [jsonToImage_eq]
    have : getString data "id" = "" := by simp [getString, h]
    simp [this]
  · intro data i n hid hi hname hn _himg _hst
    rw [jsonToContainer_eq]
    have h1 : getString data "id" = i := by simp [getString, hid]
    have h2 : getString data "name" = n := by simp [getString, hname]
    rw [h1, h2]
    simp [hi, hn]
  · intro data i hid hi hname htag
    rw [jsonToImage_eq]
    have h1 : getString data "id" = i := by simp [getString, hid]
    have h2 : getString data "name" = "" := by simp [getString, hname]
    have h3 : getString data "tag" = "" := by simp [getString, htag]
    rw [h1, h2, h3]
    simp [hi]

/-- Witness for C4: a record missing id is rejected; minimal container and
image records missing every optional field are kept with empty-string
defaults. -/
theorem mandatory_vs_optional_fields_witness :
    jsonToContainer recNoId = none ∧
    jsonToImage recNoId = none ∧
    jsonToContainer recCMin =
      some { ID := "a", Name := "b", Image := "", State := "" } ∧
    jsonToImage recIMin = some { ID := "a", Name := "", Tag := "" } :=
  ⟨mandatory_vs_optional_fields.1 recNoId rfl,
   mandatory_vs_optional_fields.2.2.1 recNoId rfl,
   mandatory_vs_optional_fields.2.2.2.1 recCMin "a" "b" rfl (by decide)
     rfl (by decide) rfl rfl,
   mandatory_vs_optional_fields.2.2.2.2 recIMin "a" rfl (by decide) rfl rfl⟩

/-- C2 counterexample: a decoded record with non-empty id and name and
state "stopped" produces a Container entity whose State field is the empty
string, not "exited": the source computes the mapped state only for its
debug log and never stores it on the entity. -/
theorem state_mapping_counterexample :
    (jsonToContainer recStopped).map Container.State = some "" ∧
    some ("" : String) ≠ some "exited" :=
  ⟨rfl, by decide⟩

/-- C2 (amended): the state-vocabulary switch in jsonToContainer maps
"stopped" to "exited" and leaves every other state unchanged, but its
result feeds only the debug log: the State field of every produced
Container entity is the empty string. -/
theorem state_mapping_amended :
    (∀ (data : RawRecord) (c : Container),
      jsonToContainer data = some c → c.State = "") ∧
    mapAppleState "stopped" = "exited" ∧
    (∀ s : String, s ≠ "stopped" → mapAppleState s = s) := by
  refine ⟨?_, rfl, ?_⟩
  · intro data c h
    rw [jsonToContainer_eq] at h
    split at h
    · exact absurd h (by simp)
    · cases h
      rfl
  · intro s hs
    simp [mapAppleState, hs]

/-- Witness for C2 (amended) at the concrete stopped record and the
concrete state "running". -/
theorem state_mapping_amended_witness :
    ({ ID := "abc123", Name := "c1", Image := "", State := "" } :
      Container).State = "" ∧
    mapAppleState "running" = "running" :=
  ⟨state_mapping_amended.1 recStopped
     { ID := "abc123", Name := "c1", Image := "", State := "" } rfl,
   state_mapping_amended.2.2 "running" (by decide)⟩

/-- C3 counterexample: a single well-formed container line whose record
carries the image field with value "nginx" parses to exactly one entity,
but the entity's Image field is the empty string rather than the input
value, because the source never stores the extracted image on the entity.
(The State field fails the claim the same way.) -/
theorem single_line_fields_counterexample :
    getString recC3 "image" = "nginx" ∧
    (parseContainerList decC3 lineC3).1.map Container.Image = [""] ∧
    ("" : String) ≠ "nginx" :=
  ⟨rfl, by decide, by decide⟩

/-- C3 (amended): a well-formed single-line record with all mandatory
fields present parses to exactly one entity and a nil error; for images
the entity's fields equal the extracted input values (present fields) or
the empty string (absent optional fields); for containers the ID and Name
equal the extracted input values while the Image and State fields are
always the empty string, whether or not the input carries image or state
values. -/
theorem single_line_parse_amended
    (decC decI : List Char → Option RawRecord) (outC outI lC lI : List Char)
    (rC rI : RawRecord)
    (hC : splitNl (trimSpace outC) = [lC]) (hlC : trimSpace lC ≠ [])
    (hdC : decC lC = some rC)
    (hidC : getString rC "id" ≠ "") (hnmC : getString rC "name" ≠ "")
    (hI : splitNl (trimSpace outI) = [lI]) (hlI : trimSpace lI ≠ [])
    (hdI : decI lI = some rI) (hidI : getString rI "id" ≠ "") :
    parseContainerList decC outC =
      ([{ ID := getString rC "id", Name := getString rC "name",
          Image := "", State := "" }], none) ∧
    parseImageList decI outI =
      ([{ ID := getString rI "id", Name := getString rI "name",
          Tag := getString rI "tag" }], none) := by
  constructor
  · have hne : trimSpace outC ≠ [] := by
      intro h0
      have := singleton_blank_of_splitNl_trim_nil h0 hC
      have hl0 : lC = [] := by simpa using this
      exact hlC (by rw [hl0]; rfl)
    rw [parseContainerList_eq_filterMap decC outC hne, hC]
    rw [List.filterMap_cons, containerLineStep_eq_some hlC hdC hidC hnmC]
    rfl
  · have hne : trimSpace outI ≠ [] := by
      intro h0
      have := singleton_blank_of_splitNl_trim_nil h0 hI
      have hl0 : lI = [] := by simpa using this
      exact hlI (by rw [hl0]; rfl)
    rw [parseImageList_eq_filterMap decI outI hne, hI]
    rw [List.filterMap_cons, imageLineStep_eq_some hlI hdI hidI]
    rfl

/-- Witness for C3 (amended) at the concrete single container and image
lines. -/
theorem single_line_parse_amended_witness :
    parseContainerList decC3 lineC3 =
      ([{ ID := "abc123", Name := "test-container",
          Image := "", State := "" }], none) ∧
    parseImageList decI3 lineI3 =
      ([{ ID := "img123", Name := "nginx", Tag := "latest" }], none) :=
  single_line_parse_amended decC3 decI3 lineC3 lineI3 lineC3 lineI3
    recC3 recI3 (by decide) (by decide) rfl (by decide) (by decide)
    (by decide) (by decide) rfl (by decide)

/-- C1: a line that fails structural decode is dropped: the parse of an
input whose (trimmed, newline-split) lines are L1, the malformed line, L2
equals the parse of an input whose lines are L1, L2 — same entities, same
count, same relative order — and the batch error is nil, for containers
and for images alike. -/
theorem malformed_line_dropped
    (decC decI : List Char → Option RawRecord)
    (outC outC2 outI outI2 : List Char)
    (L1 L2 M1 M2 : List (List Char)) (badC badI : List Char)
    (hC : splitNl (trimSpace outC) = L1 ++ badC :: L2)
    (hCbad1 : trimSpace badC ≠ []) (hCbad2 : decC badC = none)
    (hC2 : splitNl (trimSpace outC2) = L1 ++ L2)
    (hI : splitNl (trimSpace outI) = M1 ++ badI :: M2)
    (hIbad1 : trimSpace badI ≠ []) (hIbad2 : decI badI = none)
    (hI2 : splitNl (trimSpace outI2) = M1 ++ M2) :
    parseContainerList decC outC = parseContainerList decC outC2 ∧
    (parseContainerList decC outC).2 = none ∧
    parseImageList decI outI = parseImageList decI outI2 ∧
    (parseImageList decI outI).2 = none := by
  refine ⟨?_, by rw [parseContainerList_unfold], ?_,
    by rw [parseImageList_unfold]⟩
  · rw [parseContainerList_unfold, parseContainerList_unfold]
    exact congrArg (fun l => (l, none))
      (filterMap_splitNl_drop (containerLineStep decC) outC outC2 L1 L2 badC
        (containerLineStep_none_of_decode_none hCbad2) rfl hC hC2 hCbad1)
  · rw [parseImageList_unfold, parseImageList_unfold]
    exact congrArg (fun l => (l, none))
      (filterMap_splitNl_drop (imageLineStep decI) outI outI2 M1 M2 badI
        (imageLineStep_none_of_decode_none hIbad2) rfl hI hI2 hIbad1)

/-- Witness for C1: one good line followed by one undecodable line parses
exactly like the good line alone, for containers and for images. -/
theorem malformed_line_dropped_witness :
    parseContainerList decBad "good\nbad!".data =
      parseContainerList decBad "good".data ∧
    (parseContainerList decBad "good\nbad!".data).2 = none ∧
    parseImageList decBad "goodI\nbad!".data =
      parseImageList decBad "goodI".data ∧
    (parseImageList decBad "goodI\nbad!".data).2 = none :=
  malformed_line_dropped decBad decBad
    "good\nbad!".data "good".data "goodI\nbad!".data "goodI".data
    ["good".data] [] ["goodI".data] [] "bad!".data "bad!".data
    (by decide) (by decide) rfl (by decide)
    (by decide) (by decide) rfl (by decide)

/-- C6: for an input of N newline-joined well-formed records each carrying
all mandatory fields, parsing yields exactly N entities, the i-th entity
being the one produced from the i-th input line, with a nil error, for
containers and for images alike. -/
theorem n_lines_yield_n_entities
    (decC decI : List Char → Option RawRecord) (outC outI : List Char)
    (LC LI : List (List Char))
    (hC : splitNl (trimSpace outC) = LC)
    (hCall : ∀ l ∈ LC, trimSpace l ≠ [] ∧
      ∃ r, decC l = some r ∧ getString r "id" ≠ "" ∧ getString r "name" ≠ "")
    (hI : splitNl (trimSpace outI) = LI)
    (hIall : ∀ l ∈ LI, trimSpace l ≠ [] ∧
      ∃ r, decI l = some r ∧ getString r "id" ≠ "") :
    parseContainerList decC outC =
      (LC.map (fun l => (containerLineStep decC l).getD default), none) ∧
    (parseContainerList decC outC).1.length = LC.length ∧
    parseImageList decI outI =
      (LI.map (fun l => (imageLineStep decI l).getD default), none) ∧
    (parseImageList decI outI).1.length = LI.length := by
  have hneC : trimSpace outC ≠ [] := by
    intro h0
    have hL := singleton_blank_of_splitNl_trim_nil h0 hC
    have hmem : ([] : List Char) ∈ LC := by rw [hL]; simp
    exact (hCall [] hmem).1 rfl
  have hsomeC : ∀ l ∈ LC, (containerLineStep decC l).isSome := by
    intro l hl
    obtain ⟨h1, r, h2, h3, h4⟩ := hCall l hl
    rw [containerLineStep_eq_some h1 h2 h3 h4]
    rfl
  have heqC : parseContainerList decC outC =
      (LC.map (fun l => (containerLineStep decC l).getD default), none) := by
    rw [parseContainerList_eq_filterMap decC outC hneC, hC,
        filterMap_eq_map_getD _ _ hsomeC]
  have hneI : trimSpace outI ≠ [] := by
    intro h0
    have hL := singleton_blank_of_splitNl_trim_nil h0 hI
    have hmem : ([] : List Char) ∈ LI := by rw [hL]; simp
    exact (hIall [] hmem).1 rfl
  have hsomeI : ∀ l ∈ LI, (imageLineStep decI l).isSome := by
    intro l hl
    obtain ⟨h1, r, h2, h3⟩ := hIall l hl
    rw [imageLineStep_eq_some h1 h2 h3]
    rfl
  have heqI : parseImageList decI outI =
      (LI.map (fun l => (imageLineStep decI l).getD default), none) := by
    rw [parseImageList_eq_filterMap decI outI hneI, hI,
        filterMap_eq_map_getD _ _ hsomeI]
  exact ⟨heqC, by rw [heqC]; simp, heqI, by rw [heqI]; simp⟩

/-- Witness for C6 at two concrete newline-joined well-formed lines:
two entities come back, for containers and for images. -/
theorem n_lines_yield_n_entities_witness :
    (parseContainerList decTwo "l1\nl2".data).1.length = 2 ∧
    (parseImageList decTwo "l1\nl2".data).1.length = 2 := by
  have h := n_lines_yield_n_entities decTwo decTwo
    "l1\nl2".data "l1\nl2".data
    ["l1".data, "l2".data] ["l1".data, "l2".data]
    (by decide)
    (by
      intro l hl
      simp only [List.mem_cons, List.not_mem_nil, or_false] at hl
      rcases hl with h | h <;> subst h
      · exact ⟨by decide,
          [("id", JsonValue.str "a1"), ("name", JsonValue.str "b1")],
          rfl, by decide, by decide⟩
      · exact ⟨by decide,
          [("id", JsonValue.str "a2"), ("name", JsonValue.str "b2")],
          rfl, by decide, by decide⟩)
    (by decide)
    (by
      intro l hl
      simp only [List.mem_cons, List.not_mem_nil, or_false] at hl
      rcases hl with h | h <;> subst h
      · exact ⟨by decide,
          [("id", JsonValue.str "a1"), ("name", JsonValue.str "b1")],
          rfl, by decide⟩
      · exact ⟨by decide,
          [("id", JsonValue.str "a2"), ("name", JsonValue.str "b2")],
          rfl, by decide⟩)
  exact ⟨h.2.1, h.2.2.2⟩
